import Mathlib

/-
Verification of the Self-Evolving Test Suite (SETS) engine:
a shallow embedding of src/sets/src/CodeAnalyzer.ts and
src/sets/src/TestGenerator.ts (the latter source file contains both the
TestGenerator class and the SelfEvolvingTestSuite orchestrator).

Modelling conventions:
- JS strings are Lean `String`s; JS numbers arising here are exact
  ratios of small integers and are modelled as `ℚ`.
- Code that can throw is modelled in `Except String`; code that cannot
  throw (e.g. a body wrapped whole in try/catch) gets a total type.
- External platform facilities (the filesystem, the Babel parser, the
  Python route regexes, the OpenAI client, `Date.now`) are fields of a
  `JsEnv` record; everything written in the repository itself is
  embedded as executable Lean definitions.
- The mutable `endpointCache` map of `CodeAnalyzer` and the
  `fileSnapshots` map of the orchestrator are insertion-ordered
  association lists threaded explicitly through each call.
-/

/-- An API endpoint as in the SETS data model: HTTP method, route path and an
optional human-readable description. Identity is the (method, path) pair. -/
structure APIEndpoint where
  method : String
  path : String
  description : Option String := none
deriving DecidableEq, Repr

/-- The `type` tag of a `CodeChange` (`'added' | 'modified' | 'deleted'`). -/
inductive ChangeKind where
  | added
  | modified
  | deleted
deriving DecidableEq, Repr

/-- One endpoint-level change. In the source every such record carries the
constant tag `type: 'endpoint'` (elided here), a display `path` string
`"METHOD path"`, and optional `before`/`after` endpoint snapshots. -/
structure Change where
  path : String
  before : Option APIEndpoint := none
  after : Option APIEndpoint := none
deriving DecidableEq, Repr

/-- One watched-file event's structured diff, as produced by
`CodeAnalyzer.detectChanges`. -/
structure CodeChange where
  file : String
  type : ChangeKind
  changes : List Change
  timestamp : Nat
deriving DecidableEq, Repr

/-- A filesystem subtree: used to model the directory walks of the
orchestrator (`getAllFiles`). -/
inductive FsTree where
  | file (content : String)
  | dir (entries : List (String × FsTree))

/-- The external world of the subsystem. `readFile` models
`fs.readFileSync` (exception as `.error`); `parseJS` models the Babel
parse + traversal of `analyzeJavaScript`, returning the endpoints pushed
before any thrown error together with the optional error; `parsePy` models
the Python route regex scan of `analyzePython` (total: a regex scan cannot
throw); `fsTree` models `fs.existsSync`/`statSync`/`readdirSync` as a map
from a path to the subtree rooted there; `now` models `new Date()`. -/
structure JsEnv where
  readFile : String → Except String String
  parseJS : String → List APIEndpoint × Option String
  parsePy : String → List APIEndpoint
  fsTree : String → Option FsTree
  now : Nat

/-- The `CodeAnalyzer`'s private mutable state: the per-path
`endpointCache` map, as an insertion-ordered association list. -/
structure AnalyzerState where
  endpointCache : List (String × List APIEndpoint) := []
deriving DecidableEq, Repr

/-- `Map.get` on the endpoint cache. -/
def cacheGet (st : AnalyzerState) (k : String) : Option (List APIEndpoint) :=
  (st.endpointCache.find? (fun e => e.1 == k)).map (·.2)

/-- `Map.set` on the endpoint cache: replaces in place or appends. -/
def cacheSet (st : AnalyzerState) (k : String) (v : List APIEndpoint) : AnalyzerState :=
  if st.endpointCache.any (fun e => e.1 == k) then
    ⟨st.endpointCache.map (fun e => if e.1 == k then (k, v) else e)⟩
  else ⟨st.endpointCache ++ [(k, v)]⟩

/-- The characters a JS regex class `[a-zA-Z0-9]` matches. -/
def isSafeChar (c : Char) : Bool :=
  ('a' ≤ c && c ≤ 'z') || ('A' ≤ c && c ≤ 'Z') || ('0' ≤ c && c ≤ '9')

/-- The basename part of a path: the characters after the last `/`. -/
def afterLastSlash (l : List Char) : List Char :=
  l.foldl (fun acc c => if c = '/' then [] else acc ++ [c]) []

/-- The suffix of a character list starting at its last `.`, if any. -/
def lastDotSuffix : List Char → Option (List Char)
  | [] => none
  | c :: rest =>
      match lastDotSuffix rest with
      | some s => some s
      | none => if c = '.' then some (c :: rest) else none

/-- Model of Node `path.extname`: the suffix of the basename starting at its
last dot, where a dot at position 0 of the basename does not start an
extension (so `.bashrc` has extension `""`). The degenerate all-dots corner
(`".."`) is not modelled exactly; no claim depends on it. -/
def extname (p : String) : String :=
  match afterLastSlash p.data with
  | [] => ""
  | _ :: rest =>
      match lastDotSuffix rest with
      | some s => String.mk s
      | none => ""

/-- Model of Node `path.join` restricted to the use here: joining a
directory and a relative file name with `/` (no normalization needed). -/
def joinPath (a b : String) : String := a ++ "/" ++ b

/-- JS truthiness of an optional string argument: `undefined` and the
empty string are both falsy (`!previousContent`). -/
def strFalsy : Option String → Bool
  | none => true
  | some s => s == ""

/-- JS `String.prototype.includes`: literal substring test. -/
def strIncludes (hay pat : String) : Bool := decide (pat.data <:+: hay.data)

/-- JS/Node `String.prototype.endsWith`, via list suffixes (kept
kernel-reducible). -/
def strEndsWith (s suffix : String) : Bool := decide (suffix.data <:+ s.data)

/-- JS/Node `String.prototype.startsWith`, via list prefixes. -/
def strStartsWith (s pre : String) : Bool := decide (pre.data <+: s.data)

/-- The display-string form of an endpoint, `"METHOD path"`, as built at
every `${e.method} ${e.path}` site of the source. -/
def endpointDisplay (e : APIEndpoint) : String := e.method ++ " " ++ e.path

/-- JS `Set.add` on an insertion-ordered duplicate-free list. -/
def insertSet (l : List String) (x : String) : List String :=
  if x ∈ l then l else l ++ [x]

/-- `CodeAnalyzer.analyzeJavaScript`: the whole parse + traversal sits in a
try/catch whose handler only logs, so the endpoints collected up to any
thrown error are cached and returned in every case; the function itself
cannot throw, hence its total type. -/
def CodeAnalyzer.analyzeJavaScript (env : JsEnv) (st : AnalyzerState)
    (content filePath : String) : List APIEndpoint × AnalyzerState :=
  let endpoints := (env.parseJS content).1
  (endpoints, cacheSet st filePath endpoints)

/-- `CodeAnalyzer.analyzePython`: regex-based route scan, cached per path. -/
def CodeAnalyzer.analyzePython (env : JsEnv) (st : AnalyzerState)
    (content filePath : String) : List APIEndpoint × AnalyzerState :=
  let endpoints := env.parsePy content
  (endpoints, cacheSet st filePath endpoints)

/-- `CodeAnalyzer.analyzeFile`: reads the file (this read can throw), then
dispatches on the extension; unsupported extensions yield `[]` without
touching the cache. -/
def CodeAnalyzer.analyzeFile (env : JsEnv) (st : AnalyzerState)
    (filePath : String) : Except String (List APIEndpoint × AnalyzerState) :=
  match env.readFile filePath with
  | .error err => .error err
  | .ok content =>
      let ext := extname filePath
      if ext == ".js" || ext == ".ts" then
        .ok (CodeAnalyzer.analyzeJavaScript env st content filePath)
      else if ext == ".py" then
        .ok (CodeAnalyzer.analyzePython env st content filePath)
      else
        .ok ([], st)

/-- An addition entry as pushed by `detectChanges`/`analyzeNewFile`:
display path and `after` only. -/
def mkAddedChange (e : APIEndpoint) : Change :=
  { path := endpointDisplay e, after := some e }

/-- A removal entry as pushed by `detectChanges`: display path and
`before` only. -/
def mkRemovedChange (e : APIEndpoint) : Change :=
  { path := endpointDisplay e, before := some e }

/-- The identity comparison of the source's `find` callbacks:
`e.path === x.path && e.method === x.method`. -/
def epIdMatch (a b : APIEndpoint) : Bool :=
  a.path == b.path && a.method == b.method

/-- `CodeAnalyzer.analyzeNewFile`: every endpoint of the file becomes an
addition entry. -/
def CodeAnalyzer.analyzeNewFile (env : JsEnv) (st : AnalyzerState)
    (filePath : String) : Except String (List Change × AnalyzerState) :=
  match CodeAnalyzer.analyzeFile env st filePath with
  | .error err => .error err
  | .ok (endpoints, st') => .ok (endpoints.map mkAddedChange, st')

/-- `CodeAnalyzer.detectChanges`: reads the current content (can throw);
a falsy `previousContent` (absent or `""`) takes the new-file branch; a
byte-identical previous content returns `none`; otherwise the current
extraction is diffed against the cached previous extraction, additions
first (pushed per `forEach`), then removals, and an empty diff returns
`none`. -/
def CodeAnalyzer.detectChanges (env : JsEnv) (st : AnalyzerState)
    (filePath : String) (previousContent : Option String) :
    Except String (Option CodeChange × AnalyzerState) :=
  match env.readFile filePath with
  | .error err => .error err
  | .ok currentContent =>
      if strFalsy previousContent then
        match CodeAnalyzer.analyzeNewFile env st filePath with
        | .error err => .error err
        | .ok (chs, st') =>
            .ok (some { file := filePath, type := .added, changes := chs,
                        timestamp := env.now }, st')
      else if currentContent == previousContent.getD "" then
        .ok (none, st)
      else
        let previousEndpoints := (cacheGet st filePath).getD []
        match CodeAnalyzer.analyzeFile env st filePath with
        | .error err => .error err
        | .ok (currentEndpoints, st') =>
            let changes := currentEndpoints.foldl
              (fun acc c =>
                if previousEndpoints.any (fun e => epIdMatch e c) then acc
                else acc ++ [mkAddedChange c]) []
            let changes := previousEndpoints.foldl
              (fun acc p =>
                if currentEndpoints.any (fun e => epIdMatch e p) then acc
                else acc ++ [mkRemovedChange p]) changes
            if changes.isEmpty then .ok (none, st')
            else .ok (some { file := filePath, type := .modified,
                             changes := changes, timestamp := env.now }, st')

/-- The source-file loop of `CodeAnalyzer.calculateCoverage`: analyze each
source file in order, adding every display string to the `allEndpoints`
set. -/
def CodeAnalyzer.collectDisplays (env : JsEnv) :
    List String → AnalyzerState → List String →
    Except String (List String × AnalyzerState)
  | [], st, acc => .ok (acc, st)
  | f :: rest, st, acc =>
      match CodeAnalyzer.analyzeFile env st f with
      | .error err => .error err
      | .ok (eps, st') =>
          CodeAnalyzer.collectDisplays env rest st'
            (eps.foldl (fun a e => insertSet a (endpointDisplay e)) acc)

/-- `CodeAnalyzer.calculateCoverage`: reads the test file, collects the
distinct display strings of all source files, counts those included
literally in the test content, and returns `100` for an empty inventory,
else `(tested / all) * 100`. -/
def CodeAnalyzer.calculateCoverage (env : JsEnv) (st : AnalyzerState)
    (testFile : String) (sourceFiles : List String) :
    Except String (ℚ × AnalyzerState) :=
  match env.readFile testFile with
  | .error err => .error err
  | .ok testContent =>
      match CodeAnalyzer.collectDisplays env sourceFiles st [] with
      | .error err => .error err
      | .ok (allEndpoints, st') =>
          let testedEndpoints := allEndpoints.foldl
            (fun acc d => if strIncludes testContent d then insertSet acc d else acc) []
          .ok (if allEndpoints.length = 0 then 100
               else ((testedEndpoints.length : ℚ) / (allEndpoints.length : ℚ)) * 100, st')

/-- The endpoint inventory of a list of source files: the concatenation of
each file's extraction, with the cache threaded in call order. This is the
inventory that the claims' coverage statements quantify over. -/
def CodeAnalyzer.analyzeAll (env : JsEnv) :
    List String → AnalyzerState →
    Except String (List APIEndpoint × AnalyzerState)
  | [], st => .ok ([], st)
  | f :: rest, st =>
      match CodeAnalyzer.analyzeFile env st f with
      | .error err => .error err
      | .ok (eps, st') =>
          match CodeAnalyzer.analyzeAll env rest st' with
          | .error err => .error err
          | .ok (eps', st'') => .ok (eps ++ eps', st'')

/-- The coverage percentage in the specification's phrasing: `100` when the
set of distinct display strings of the inventory is empty, else `100`
times the number of distinct display strings literally included in the
test content, divided by the total number of distinct display strings. -/
def coveragePct (testContent : String) (inventory : List APIEndpoint) : ℚ :=
  let displays := (inventory.map endpointDisplay).toFinset
  if displays = ∅ then 100
  else 100 * ((displays.filter (fun d => strIncludes testContent d = true)).card : ℚ)
        / (displays.card : ℚ)

/-- A concrete environment: one JS source file with one `GET /users` route
and a test file mentioning it. -/
def envC1 : JsEnv :=
  { readFile := fun p =>
      if p == "t.test.js" then .ok "calls GET /users twice"
      else if p == "s.js" then .ok "routesrc"
      else .error "ENOENT"
    parseJS := fun c =>
      if c == "routesrc" then ([{ method := "GET", path := "/users" }], none)
      else ([], none)
    parsePy := fun _ => []
    fsTree := fun _ => none
    now := 0 }

/-- The claim's addition set: one entry per currently extracted endpoint
whose (method, path) identity is not in the cached previous extraction. -/
def additionsOf (prevEps curEps : List APIEndpoint) : List Change :=
  (curEps.filter (fun c => !(prevEps.any (fun e => epIdMatch e c)))).map mkAddedChange

/-- The claim's removal set: one entry per cached previous endpoint whose
(method, path) identity is not in the current extraction. -/
def removalsOf (prevEps curEps : List APIEndpoint) : List Change :=
  (prevEps.filter (fun p => !(curEps.any (fun e => epIdMatch e p)))).map mkRemovedChange

/-- A cached endpoint for the C2 scenario. -/
def epOldC2 : APIEndpoint := { method := "GET", path := "/old" }

/-- A newly extracted endpoint for the C2 scenario. -/
def epNewC2 : APIEndpoint := { method := "GET", path := "/new" }

/-- Analyzer state whose cache holds the previous extraction of `s.js`. -/
def stC2 : AnalyzerState := ⟨[("s.js", [epOldC2])]⟩

/-- Environment where `s.js` now contains one different route. -/
def envC2 : JsEnv :=
  { readFile := fun p => if p == "s.js" then .ok "newsrc" else .error "ENOENT"
    parseJS := fun c => if c == "newsrc" then ([epNewC2], none) else ([], none)
    parsePy := fun _ => []
    fsTree := fun _ => none
    now := 5 }

/-- Environment for the C2 counterexample: the file reads as `"X"` and
contains no endpoints. -/
def envC2x : JsEnv :=
  { readFile := fun _ => .ok "X"
    parseJS := fun _ => ([], none)
    parsePy := fun _ => []
    fsTree := fun _ => none
    now := 3 }

/-- Environment for the C3 witness. -/
def envC3 : JsEnv :=
  { readFile := fun _ => .ok "same"
    parseJS := fun _ => ([], none)
    parsePy := fun _ => []
    fsTree := fun _ => none
    now := 1 }

/-- Environment for the C3 counterexample: an empty file. -/
def envC3x : JsEnv :=
  { readFile := fun _ => .ok ""
    parseJS := fun _ => ([], none)
    parsePy := fun _ => []
    fsTree := fun _ => none
    now := 9 }

/-- `Map.get` on the orchestrator's file-content snapshot map. -/
def snapGet (m : List (String × String)) (k : String) : Option String :=
  (m.find? (fun e => e.1 == k)).map (·.2)

/-- `Map.set` on the snapshot map: replaces in place or appends. -/
def snapSet (m : List (String × String)) (k v : String) : List (String × String) :=
  if m.any (fun e => e.1 == k) then
    m.map (fun e => if e.1 == k then (k, v) else e)
  else m ++ [(k, v)]

/-- `Map.delete` on the snapshot map. -/
def snapErase (m : List (String × String)) (k : String) : List (String × String) :=
  m.filter (fun e => !(e.1 == k))

/-- The orchestrator's state: the single-flight guard `isEvolving`, the
`fileSnapshots` map, the analyzer's cache, and the evolver-owned substate
(kept abstract as `σ`: the TestEvolver store, generated artifacts and git
side effects do not interact with the guard or the snapshot map). -/
structure SuiteState (σ : Type) where
  isEvolving : Bool
  fileSnapshots : List (String × String)
  analyzer : AnalyzerState
  evolver : σ

/-- `SelfEvolvingTestSuite.handleFileChange`: drops the event when the
single-flight guard is set; otherwise sets the guard, runs change
detection, on a detected change replaces (non-delete events) or deletes
(delete events) the file's snapshot and runs the evolution pipeline
(abstracted as `evolve`, which may throw), catches any error, and clears
the guard on every path (the `finally`). Mutations made before a thrown
error persist, as in the source. The call to the evolution pipeline is the
separate definition `evolveApply`. -/
def evolveApply {σ : Type}
    (evolve : AnalyzerState × σ → CodeChange → Except String (AnalyzerState × σ))
    (ch : CodeChange) (s4 : SuiteState σ) : SuiteState σ :=
  match evolve (s4.analyzer, s4.evolver) ch with
  | .error _ => s4
  | .ok (ac', ev') => { s4 with analyzer := ac', evolver := ev' }

/-- The body of `handleFileChange` proper: see the comment above
`evolveApply`. -/
def SelfEvolvingTestSuite.handleFileChange {σ : Type} (env : JsEnv)
    (evolve : AnalyzerState × σ → CodeChange → Except String (AnalyzerState × σ))
    (filePath event : String) (s : SuiteState σ) : SuiteState σ :=
  if s.isEvolving then s
  else
    let s1 : SuiteState σ := { s with isEvolving := true }
    let s2 : SuiteState σ :=
      match CodeAnalyzer.detectChanges env s1.analyzer filePath
          (snapGet s1.fileSnapshots filePath) with
      | .error _ => s1
      | .ok (none, ac) => { s1 with analyzer := ac }
      | .ok (some ch, ac) =>
          let s3 : SuiteState σ := { s1 with analyzer := ac }
          let s4opt : Option (SuiteState σ) :=
            if event == "delete" then
              some { s3 with fileSnapshots := snapErase s3.fileSnapshots filePath }
            else
              match env.readFile filePath with
              | .error _ => none
              | .ok c =>
                  some { s3 with fileSnapshots := snapSet s3.fileSnapshots filePath c }
          match s4opt with
          | none => s3
          | some s4 => evolveApply evolve ch s4
    { s2 with isEvolving := false }

/-- A trivial environment for the C4 witness. -/
def envC4 : JsEnv :=
  { readFile := fun _ => .error "ENOENT"
    parseJS := fun _ => ([], none)
    parsePy := fun _ => []
    fsTree := fun _ => none
    now := 0 }

/-- Environment for the C5 witness: `f.js` reads as `"x"`. -/
def envC5 : JsEnv :=
  { readFile := fun p => if p == "f.js" then .ok "x" else .error "ENOENT"
    parseJS := fun _ => ([], none)
    parsePy := fun _ => []
    fsTree := fun _ => none
    now := 2 }

/-- Environment for the C5 counterexample: the watched file has been
deleted, so every read throws. -/
def envC5x : JsEnv :=
  { readFile := fun _ => .error "ENOENT"
    parseJS := fun _ => ([], none)
    parsePy := fun _ => []
    fsTree := fun _ => none
    now := 4 }

/-- A JS value as it appears in a TestCase's structured input and expected
assertion values: the fragment of JSON the engine manipulates. -/
inductive JsVal where
  | str (s : String)
  | num (n : Int)
  | boolean (b : Bool)
  | null
  | arr (elems : List JsVal)
  | obj (fields : List (String × JsVal))

mutual

/-- JS template-literal interpolation of a value (the `String(x)`
coercion), restricted to the values used here. -/
def jsValInterp : JsVal → String
  | .str s => s
  | .num n => toString n
  | .boolean b => if b then "true" else "false"
  | .null => "null"
  | .arr xs => jsValInterpList xs
  | .obj _ => "[object Object]"

def jsValInterpList : List JsVal → String
  | [] => ""
  | [x] => jsValInterp x
  | x :: y :: xs => jsValInterp x ++ "," ++ jsValInterpList (y :: xs)

end

mutual

/-- Model of compact `JSON.stringify` (string escaping elided: the test
data manipulated here contains no characters needing escapes). -/
def jsonCompact : JsVal → String
  | .str s => "\"" ++ s ++ "\""
  | .num n => toString n
  | .boolean b => if b then "true" else "false"
  | .null => "null"
  | .arr xs => "[" ++ jsonCompactList xs ++ "]"
  | .obj fs => "\x7b" ++ jsonCompactFields fs ++ "\x7d"

def jsonCompactList : List JsVal → String
  | [] => ""
  | [x] => jsonCompact x
  | x :: y :: xs => jsonCompact x ++ "," ++ jsonCompactList (y :: xs)

def jsonCompactFields : List (String × JsVal) → String
  | [] => ""
  | [(k, v)] => "\"" ++ k ++ "\":" ++ jsonCompact v
  | (k, v) :: g :: fs =>
      "\"" ++ k ++ "\":" ++ jsonCompact v ++ "," ++ jsonCompactFields (g :: fs)

end

/-- A run of `n` spaces. -/
def spacesN (n : Nat) : String := String.mk (List.replicate n ' ')

mutual

/-- Model of indented `JSON.stringify` with indentation `gap` at nesting
depth `depth`. -/
def jsonStringify (gap depth : Nat) : JsVal → String
  | .str s => "\"" ++ s ++ "\""
  | .num n => toString n
  | .boolean b => if b then "true" else "false"
  | .null => "null"
  | .arr [] => "[]"
  | .arr (x :: xs) =>
      "[\n" ++ spacesN (gap * (depth + 1))
        ++ jsonStringifyItems gap (depth + 1) (x :: xs)
        ++ "\n" ++ spacesN (gap * depth) ++ "]"
  | .obj [] => "\x7b\x7d"
  | .obj (f :: fs) =>
      "\x7b\n" ++ spacesN (gap * (depth + 1))
        ++ jsonStringifyFields gap (depth + 1) (f :: fs)
        ++ "\n" ++ spacesN (gap * depth) ++ "\x7d"

def jsonStringifyItems (gap depth : Nat) : List JsVal → String
  | [] => ""
  | [x] => jsonStringify gap depth x
  | x :: y :: xs =>
      jsonStringify gap depth x ++ ",\n" ++ spacesN (gap * depth)
        ++ jsonStringifyItems gap depth (y :: xs)

def jsonStringifyFields (gap depth : Nat) : List (String × JsVal) → String
  | [] => ""
  | [(k, v)] => "\"" ++ k ++ "\": " ++ jsonStringify gap depth v
  | (k, v) :: g :: fs =>
      "\"" ++ k ++ "\": " ++ jsonStringify gap depth v ++ ",\n"
        ++ spacesN (gap * depth) ++ jsonStringifyFields gap depth (g :: fs)

end

/-- A TestCase's structured input: path parameters, query and body. -/
structure TestInput where
  params : Option (List (String × String)) := none
  query : Option JsVal := none
  body : Option JsVal := none

/-- One assertion of a TestCase (`status`, `schema`, `value`, `header` or
`performance`). -/
structure Assertion where
  type : String
  expected : JsVal
  path : Option String := none
  operator : Option String := none

/-- A TestCase entity: opaque id, name, referenced endpoint, structured
input, assertions, and the auto-generated flag. -/
structure TestCase where
  id : String
  name : String
  endpoint : APIEndpoint
  input : TestInput
  assertions : List Assertion
  autoGenerated : Bool

/-- JS `String.prototype.replace` with a plain-string pattern: replaces
only the first occurrence (the empty pattern matches at position 0). -/
def replaceFirstAux (pat repl : List Char) : List Char → List Char
  | [] => if pat.isEmpty then repl else []
  | c :: rest =>
      if pat.isPrefixOf (c :: rest) then repl ++ (c :: rest).drop pat.length
      else c :: replaceFirstAux pat repl rest

/-- String version of `replaceFirstAux`. -/
def replaceFirst (s pat repl : String) : String :=
  String.mk (replaceFirstAux pat.data repl.data s.data)

/-- The `.split('\n').join('\n        ')` reindentation applied to
stringified request bodies in the template. -/
def indentJoin8 (s : String) : String :=
  String.intercalate "\n        " (s.splitOn "\n")

/-- `TestGenerator.pathToAccessor`: converts `"a.b[0].c"` into a JS
property accessor chain. -/
def pathToAccessor (p : String) : String :=
  String.join ((p.splitOn ".").map
    (fun part => if part.data.contains '[' then part else "." ++ part))

/-- The `testName` sanitization of the template:
`name.replace(/[^a-zA-Z0-9 ]/g, '')`. -/
def sanitizeTestName (s : String) : String :=
  String.mk (s.data.filter (fun c => isSafeChar c || c == ' '))

/-- The request URL of the template: the literal text `${baseURL}` plus the
endpoint path, with each `{key}` path parameter replaced (first occurrence,
as JS `replace` with a string pattern does) by its value. -/
def buildUrl (tc : TestCase) : String :=
  let url := "$\x7bbaseURL\x7d" ++ tc.endpoint.path
  match tc.input.params with
  | none => url
  | some ps => ps.foldl (fun u kv => replaceFirst u ("\x7b" ++ kv.1 ++ "\x7d") kv.2) url

/-- One line of generated assertion code (the `switch` of the template). -/
def assertionLine (a : Assertion) : String :=
  if a.type == "status" then
    "      expect(response.status).toBe(" ++ jsValInterp a.expected ++ ");\n"
  else if a.type == "schema" then
    "      expect(typeof response.data).toBe('" ++ jsValInterp a.expected ++ "');\n"
  else if a.type == "value" then
    match a.path with
    | some p =>
        "      expect(response.data" ++ pathToAccessor p ++ ")"
          ++ (if a.operator == some "exists" then ".toBeDefined();\n"
              else ".toBe(" ++ jsonCompact a.expected ++ ");\n")
    | none => ""
  else if a.type == "header" then
    "      expect(response.headers['" ++ jsValInterp a.expected ++ "']).toBeDefined();\n"
  else if a.type == "performance" then
    "      // Performance assertion: Response time should be under "
      ++ jsValInterp a.expected ++ "ms\n"
  else ""

/-- `TestGenerator.generateEdgeCaseTests`: invalid-input test for
POST/PUT/PATCH, not-found test for GET/PUT/DELETE on `{id}` paths, and an
authorization test always. -/
def generateEdgeCaseTests (tc : TestCase) : String :=
  let endpoint := tc.endpoint
  let e1 :=
    if ["POST", "PUT", "PATCH"].contains endpoint.method then
      "\n  test('" ++ tc.name ++ " - Invalid Input', async () => \x7b\n    try \x7b\n      const response = await axios."
        ++ endpoint.method.toLower
        ++ "(\n        `$\x7bbaseURL\x7d" ++ endpoint.path
        ++ "`,\n        \x7b\x7d // Empty body\n      );\n      \n      // Should not reach here\n      expect(response.status).toBe(400);\n    \x7d catch (error) \x7b\n      expect(error.response.status).toBe(400);\n      expect(error.response.data).toHaveProperty('error');\n    \x7d\n  \x7d);\n"
    else ""
  let e2 :=
    if strIncludes endpoint.path "\x7bid\x7d"
        && ["GET", "PUT", "DELETE"].contains endpoint.method then
      "\n  test('" ++ tc.name ++ " - Not Found', async () => \x7b\n    try \x7b\n      const response = await axios."
        ++ endpoint.method.toLower
        ++ "(\n        `$\x7bbaseURL\x7d" ++ replaceFirst endpoint.path "\x7bid\x7d" "99999999"
        ++ "`\n      );\n      \n      // Should not reach here for 404\n      expect(response.status).toBe(404);\n    \x7d catch (error) \x7b\n      expect(error.response.status).toBe(404);\n    \x7d\n  \x7d);\n"
    else ""
  let e3 :=
    "\n  test('" ++ tc.name ++ " - Unauthorized', async () => \x7b\n    try \x7b\n      const response = await axios."
      ++ endpoint.method.toLower
      ++ "(\n        `$\x7bbaseURL\x7d" ++ endpoint.path ++ "`,\n        "
      ++ (match tc.input.body with
          | some b => jsonCompact b
          | none => "undefined")
      ++ ",\n        \x7b\n          headers: \x7b 'Authorization': 'Bearer invalid-token' \x7d\n        \x7d\n      );\n      \n      // May succeed if endpoint doesn't require auth\n      expect([200, 201, 204, 401]).toContain(response.status);\n    \x7d catch (error) \x7b\n      expect(error.response.status).toBe(401);\n    \x7d\n  \x7d);\n"
  e1 ++ e2 ++ e3

/-- `TestGenerator.generateWithTemplate`: the template fallback, assembled
exactly as the source concatenates it (JSON rendering via the
`jsonStringify`/`jsonCompact` models of the JSON.stringify builtin). -/
def generateWithTemplate (tc : TestCase) : String :=
  let endpoint := tc.endpoint
  let testName := sanitizeTestName tc.name
  let method := endpoint.method.toLower
  let url := buildUrl tc
  let part1 :=
    "const axios = require('axios');\n\ndescribe('" ++ testName
      ++ "', () => \x7b\n  const baseURL = process.env.API_BASE_URL || 'http://localhost:3000';\n  \n  test('"
      ++ tc.name ++ "', async () => \x7b\n    try \x7b\n"
  let reqLine := "      const response = await axios." ++ method ++ "('" ++ url ++ "'"
  let reqBody :=
    match tc.input.body with
    | some b => ",\n        " ++ indentJoin8 (jsonStringify 8 0 b)
    | none => ""
  let reqQuery :=
    match tc.input.query with
    | some q => ",\n        " ++ indentJoin8 (jsonStringify 8 0 (.obj [("params", q)]))
    | none => ""
  let asserts := String.join (tc.assertions.map assertionLine)
  let closing :=
    "    \x7d catch (error) \x7b\n      if (error.response) \x7b\n        console.error('Response error:', error.response.data);\n        console.error('Status:', error.response.status);\n      \x7d\n      throw error;\n    \x7d\n  \x7d);\n"
  part1 ++ reqLine ++ reqBody ++ reqQuery ++ ");\n\n" ++ asserts ++ closing
    ++ generateEdgeCaseTests tc ++ "\x7d);\n"

/-- `TestGenerator.generateWithAI`: the external chat-completion call is
modelled as the response it would produce — an exception (`.error`) or an
optional content string (`none` models a missing
`choices[0]?.message?.content`). A thrown error is caught and falls back
to the template; a missing or empty (falsy) content also falls back via
`content || template`. -/
def TestGenerator.generateWithAI (resp : Except String (Option String))
    (tc : TestCase) : String :=
  match resp with
  | .error _ => generateWithTemplate tc
  | .ok content =>
      match content with
      | some c => if c == "" then generateWithTemplate tc else c
      | none => generateWithTemplate tc

/-- `TestGenerator.generateTestCode`: dispatches to the AI path when an
OpenAI client is configured (the client is modelled by the response its
call would produce), and to the template path otherwise. -/
def TestGenerator.generateTestCode (openai : Option (Except String (Option String)))
    (tc : TestCase) : String :=
  match openai with
  | none => generateWithTemplate tc
  | some resp => TestGenerator.generateWithAI resp tc

/-- The sanitized file-name token of the orchestrator's test persistence:
`testCase.endpoint.path.replace(/[^a-zA-Z0-9]/g, '_')`. -/
def sanitizeEndpointPath (p : String) : String :=
  String.mk (p.data.map (fun c => if isSafeChar c then c else '_'))

/-- The test-source file path computed by
`SelfEvolvingTestSuite.generateTestCode`:
`path.join(config.testPaths[0], sanitizedPath + '.test.js')`; `none` when
no test path is configured (the source would crash on `undefined`). -/
def SelfEvolvingTestSuite.testFilePathFor (testPaths : List String)
    (tc : TestCase) : Option String :=
  testPaths.head?.map
    (fun t0 => joinPath t0 (sanitizeEndpointPath tc.endpoint.path ++ ".test.js"))

/-- A test case for `GET /users`. -/
def tcGetUsers : TestCase :=
  { id := "1", name := "t1", endpoint := { method := "GET", path := "/users" },
    input := {}, assertions := [], autoGenerated := true }

/-- A test case for `POST /users`. -/
def tcPostUsers : TestCase :=
  { id := "2", name := "t2", endpoint := { method := "POST", path := "/users" },
    input := {}, assertions := [], autoGenerated := true }

/-- A test case for `GET /posts`. -/
def tcGetPosts : TestCase :=
  { id := "3", name := "t3", endpoint := { method := "GET", path := "/posts" },
    input := {}, assertions := [], autoGenerated := true }

/-- Environment for the C7 witness: the parser throws a syntax error on
every input after collecting no endpoints. -/
def envC7 : JsEnv :=
  { readFile := fun _ => .ok "body"
    parseJS := fun _ => ([], some "SyntaxError")
    parsePy := fun _ => []
    fsTree := fun _ => none
    now := 0 }

/-- A minimal test case for the C8 witness. -/
def tcC8 : TestCase :=
  { id := "8", name := "n", endpoint := { method := "GET", path := "/x" },
    input := {}, assertions := [], autoGenerated := true }

instance {ε α : Type} [DecidableEq ε] [DecidableEq α] : DecidableEq (Except ε α)
  | .error e1, .error e2 =>
      if h : e1 = e2 then isTrue (congrArg Except.error h)
      else isFalse (fun hc => h (Except.error.inj hc))
  | .error _, .ok _ => isFalse (fun hc => Except.noConfusion hc)
  | .ok _, .error _ => isFalse (fun hc => Except.noConfusion hc)
  | .ok a, .ok b =>
      if h : a = b then isTrue (congrArg Except.ok h)
      else isFalse (fun hc => h (Except.ok.inj hc))

mutual

/-- One step of the `getAllFiles` walk: a directory entry is recursed into
unless hidden or `node_modules`; a file is collected when its name ends in
one of the extensions. -/
def walkNode (exts : List String) (dir name : String) : FsTree → List String
  | .file _ =>
      if exts.any (fun e => strEndsWith name e) then [joinPath dir name] else []
  | .dir sub =>
      if strStartsWith name "." || name == "node_modules" then []
      else walkEntries exts (joinPath dir name) sub

/-- The `readdirSync` loop of `getAllFiles`, in directory order. -/
def walkEntries (exts : List String) (dir : String) :
    List (String × FsTree) → List String
  | [] => []
  | (name, t) :: rest => walkNode exts dir name t ++ walkEntries exts dir rest

end

/-- `SelfEvolvingTestSuite.getAllFiles`: nothing for a missing path, the
path itself for a file-typed path (regardless of its name), else the
recursive walk. -/
def SelfEvolvingTestSuite.getAllFiles (env : JsEnv) (dir : String) (exts : List String) : List String :=
  match env.fsTree dir with
  | none => []
  | some (.file _) => [dir]
  | some (.dir entries) => walkEntries exts dir entries

/-- The source-file collection of `calculateCurrentCoverage`. -/
def sourceFilesOf (env : JsEnv) (watchPaths : List String) : List String :=
  watchPaths.foldl (fun acc w => acc ++ SelfEvolvingTestSuite.getAllFiles env w [".js", ".ts"]) []

/-- The test-file collection of `calculateCurrentCoverage` (guarded per
test path by `fs.existsSync`). -/
def testFilesOf (env : JsEnv) (testPaths : List String) : List String :=
  testPaths.foldl
    (fun acc t =>
      if (env.fsTree t).isSome then
        acc ++ SelfEvolvingTestSuite.getAllFiles env t [".test.js", ".spec.js"]
      else acc) []

/-- The inner accumulation loop of `calculateCurrentCoverage`:
`totalCoverage += coverage; testCount++` per test file. -/
def sumCoverList (env : JsEnv) (srcs : List String) :
    List String → ℚ → Nat → AnalyzerState → Except String (ℚ × Nat × AnalyzerState)
  | [], tot, cnt, st => .ok (tot, cnt, st)
  | tf :: rest, tot, cnt, st =>
      match CodeAnalyzer.calculateCoverage env st tf srcs with
      | .error err => .error err
      | .ok (cov, st') => sumCoverList env srcs rest (tot + cov) (cnt + 1) st'

/-- The outer loop of `calculateCurrentCoverage` over configured test
paths. -/
def sumOverTestPaths (env : JsEnv) (srcs : List String) :
    List String → ℚ → Nat → AnalyzerState → Except String (ℚ × Nat × AnalyzerState)
  | [], tot, cnt, st => .ok (tot, cnt, st)
  | tp :: rest, tot, cnt, st =>
      if (env.fsTree tp).isSome then
        match sumCoverList env srcs (SelfEvolvingTestSuite.getAllFiles env tp [".test.js", ".spec.js"])
            tot cnt st with
        | .error err => .error err
        | .ok (tot', cnt', st') => sumOverTestPaths env srcs rest tot' cnt' st'
      else sumOverTestPaths env srcs rest tot cnt st

/-- `SelfEvolvingTestSuite.calculateCurrentCoverage`: 0 when no test file
was collected, else the accumulated total divided by the count. -/
def SelfEvolvingTestSuite.calculateCurrentCoverage (env : JsEnv)
    (watchPaths testPaths : List String) (st : AnalyzerState) :
    Except String (ℚ × AnalyzerState) :=
  let srcs := sourceFilesOf env watchPaths
  match sumOverTestPaths env srcs testPaths 0 0 st with
  | .error err => .error err
  | .ok (tot, cnt, st') => .ok (if cnt = 0 then 0 else tot / (cnt : ℚ), st')

/-- The per-test-file coverage percentages, in collection order: the list
whose arithmetic mean the claim says `calculateCurrentCoverage` returns. -/
def coverList (env : JsEnv) (srcs : List String) :
    List String → AnalyzerState → Except String (List ℚ × AnalyzerState)
  | [], st => .ok ([], st)
  | tf :: rest, st =>
      match CodeAnalyzer.calculateCoverage env st tf srcs with
      | .error err => .error err
      | .ok (c, st') =>
          match coverList env srcs rest st' with
          | .error err => .error err
          | .ok (cs, st'') => .ok (c :: cs, st'')

mutual

/-- Whether a `*.test.js` or `*.spec.js` file exists anywhere under a
subtree — the claim's phrase "exists under the test path", with no
directory skipped. -/
def hasTestFileIn : FsTree → Bool
  | .file _ => false
  | .dir entries => hasTestFileInEntries entries

/-- The entry list form of `hasTestFileIn`. -/
def hasTestFileInEntries : List (String × FsTree) → Bool
  | [] => false
  | (name, t) :: rest =>
      (match t with
       | .file _ => strEndsWith name ".test.js" || strEndsWith name ".spec.js"
       | .dir _ => hasTestFileIn t) || hasTestFileInEntries rest

end

/-- The test-file collection as a plain recursion (equal to the foldl in
`testFilesOf`). -/
def testFilesRec (env : JsEnv) : List String → List String
  | [] => []
  | tp :: rest =>
      (if (env.fsTree tp).isSome then
        SelfEvolvingTestSuite.getAllFiles env tp [".test.js", ".spec.js"]
      else []) ++ testFilesRec env rest

/-- The watched tree for the C9 scenarios: one source file with one
route. -/
def fsC9w : FsTree := .dir [("s.js", .file "srcC9")]

/-- A test directory whose only test file sits inside `node_modules`. -/
def fsC9hidden : FsTree :=
  .dir [("node_modules", .dir [("a.test.js", .file "GET /u")])]

/-- Environment for the C9 counterexample. -/
def envC9x : JsEnv :=
  { readFile := fun p =>
      if p == "t/node_modules/a.test.js" then .ok "GET /u"
      else if p == "w/s.js" then .ok "srcC9"
      else .error "ENOENT"
    parseJS := fun c =>
      if c == "srcC9" then ([{ method := "GET", path := "/u" }], none)
      else ([], none)
    parsePy := fun _ => []
    fsTree := fun p =>
      if p == "t" then some fsC9hidden
      else if p == "w" then some fsC9w
      else none
    now := 0 }

/-- The test directory for the C9 witness: one collectable test file. -/
def fsC9t : FsTree := .dir [("a.test.js", .file "has GET /u")]

/-- Environment for the C9 witness. -/
def envC9 : JsEnv :=
  { readFile := fun p =>
      if p == "t/a.test.js" then .ok "has GET /u"
      else if p == "w/s.js" then .ok "srcC9"
      else .error "ENOENT"
    parseJS := fun c =>
      if c == "srcC9" then ([{ method := "GET", path := "/u" }], none)
      else ([], none)
    parsePy := fun _ => []
    fsTree := fun p =>
      if p == "t" then some fsC9t
      else if p == "w" then some fsC9w
      else none
    now := 0 }

/-- The analyzer state after the C9 witness run. -/
def stC9 : AnalyzerState := ⟨[("w/s.js", [{ method := "GET", path := "/u" }])]⟩

/-- The before/after coverage pair of an evolution record. -/
structure EvolCoverage where
  before : ℚ
  after : ℚ

/-- One evolution action (`added`/`updated`/`removed`), carrying the
affected test case. -/
structure EvolutionAction where
  type : String
  details : Option TestCase := none
  reason : String := ""

/-- An `Evolution` record: version, reason, actions, coverage pair and
timestamp. -/
structure Evolution where
  version : Nat
  reason : String
  changes : List EvolutionAction
  coverage : EvolCoverage
  timestamp : Nat

/-- Modelled from the spec: the TestEvolver's in-memory state — the
authoritative `TestCase` store and the append-only evolution history
(`TestEvolver.ts` is not under `src/`; only its callers are). -/
structure TestEvolverState where
  testCases : List TestCase
  history : List Evolution

/-- Modelled from the spec: `TestEvolver.getTestCases`, the accessor of the
evolver's test-case store read by `getMetrics`. -/
def TestEvolver.getTestCases (s : TestEvolverState) : List TestCase :=
  s.testCases

/-- Modelled from the spec: `TestEvolver.getEvolutionHistory`, the accessor
of the append-only history list read by `getMetrics`. -/
def TestEvolver.getEvolutionHistory (s : TestEvolverState) : List Evolution :=
  s.history

/-- The record returned by `getMetrics`. -/
structure Metrics where
  totalTests : Nat
  autoGeneratedTests : Nat
  coverage : ℚ
  lastEvolution : Option Nat

/-- `SelfEvolvingTestSuite.getMetrics`: test-count, auto-generated count,
and the coverage/timestamp of `history[history.length - 1]` (the last
entry, taken via `getLast?`) with 0/null for an empty history. -/
def SelfEvolvingTestSuite.getMetrics (s : TestEvolverState) : Metrics :=
  let tests := TestEvolver.getTestCases s
  let history := TestEvolver.getEvolutionHistory s
  { totalTests := tests.length
    autoGeneratedTests := (tests.filter (fun t => t.autoGenerated)).length
    coverage :=
      match history.getLast? with
      | some x => x.coverage.after
      | none => 0
    lastEvolution :=
      match history.getLast? with
      | some x => some x.timestamp
      | none => none }

/-- A stored auto-generated test case for the C10 witness. -/
def tcC10 : TestCase :=
  { id := "10", name := "m", endpoint := { method := "GET", path := "/m" },
    input := {}, assertions := [], autoGenerated := true }

/-- A history entry for the C10 witness. -/
def evC10 : Evolution :=
  { version := 1, reason := "r", changes := [],
    coverage := { before := 0, after := 55 }, timestamp := 42 }

/-- A concrete evolver state for the C10 witness. -/
def sC10 : TestEvolverState := { testCases := [tcC10], history := [evC10] }

/-- A `forEach`-style conditional push is a filter-then-map. -/
theorem foldl_pushIf {α β : Type} (q : α → Bool) (g : α → β) :
    ∀ (l : List α) (init : List β),
      l.foldl (fun acc c => if q c then acc else acc ++ [g c]) init
        = init ++ (l.filter (fun c => !q c)).map g := by
  intro l
  induction l with
  | nil => intro init; simp
  | cons c rest ih =>
      intro init
      by_cases h : q c = true
      · simp [h, ih]
      · simp only [Bool.not_eq_true] at h
        simp [h, ih]

/-- Folding `insertSet` over a list keeps the accumulator duplicate-free and
accumulates exactly the union of the underlying finite sets. -/
theorem foldl_insertSet_nodup_toFinset :
    ∀ (l : List String) (acc : List String), acc.Nodup →
      (l.foldl insertSet acc).Nodup ∧
      (l.foldl insertSet acc).toFinset = acc.toFinset ∪ l.toFinset := by
  intro l
  induction l with
  | nil => intro acc h; simp [h]
  | cons x rest ih =>
      intro acc h
      by_cases hx : x ∈ acc
      · have hstep : insertSet acc x = acc := by simp [insertSet, hx]
        rw [List.foldl_cons, hstep]
        obtain ⟨h1, h2⟩ := ih acc h
        refine ⟨h1, ?_⟩
        rw [h2, List.toFinset_cons, Finset.union_insert,
          Finset.insert_eq_self.2 (by simp [hx] : x ∈ acc.toFinset ∪ rest.toFinset)]
      · have hstep : insertSet acc x = acc ++ [x] := by simp [insertSet, hx]
        rw [List.foldl_cons, hstep]
        have hnd : (acc ++ [x]).Nodup := by
          rw [List.nodup_append]
          refine ⟨h, List.nodup_singleton x, ?_⟩
          intro a ha hax
          rw [List.mem_singleton] at hax
          exact hx (hax ▸ ha)
        obtain ⟨h1, h2⟩ := ih (acc ++ [x]) hnd
        refine ⟨h1, ?_⟩
        rw [h2, List.toFinset_append]
        ext a
        simp
        tauto

/-- Folding a conditional `insertSet` of fresh elements over a
duplicate-free list appends exactly the filtered list. -/
theorem foldl_filterInsert (p : String → Bool) :
    ∀ (l : List String) (acc : List String),
      (∀ x ∈ l, x ∉ acc) → l.Nodup →
      l.foldl (fun a d => if p d then insertSet a d else a) acc
        = acc ++ l.filter p := by
  intro l
  induction l with
  | nil => intro acc _ _; simp
  | cons d rest ih =>
      intro acc hdisj hnd
      have hd : d ∉ acc := hdisj d (by simp)
      by_cases hp : p d = true
      · have hstep : insertSet acc d = acc ++ [d] := by simp [insertSet, hd]
        rw [List.foldl_cons, if_pos hp, hstep,
          ih (acc ++ [d]) ?_ (List.nodup_cons.1 hnd).2]
        · simp [List.filter_cons, hp]
        · intro x hx
          simp only [List.mem_append, List.mem_singleton]
          push_neg
          exact ⟨hdisj x (by simp [hx]),
            fun hxd => ((List.nodup_cons.1 hnd).1 (hxd ▸ hx)).elim⟩
      · simp only [Bool.not_eq_true] at hp
        rw [List.foldl_cons, if_neg (by simp [hp]),
          ih acc (fun x hx => hdisj x (by simp [hx])) (List.nodup_cons.1 hnd).2]
        simp [List.filter_cons, hp]

/-- The source-file loop of `calculateCoverage` is the inventory of
`analyzeAll` folded into the display-string set. -/
theorem collectDisplays_eq_analyzeAll (env : JsEnv) :
    ∀ (files : List String) (st : AnalyzerState) (acc : List String),
      CodeAnalyzer.collectDisplays env files st acc
        = (CodeAnalyzer.analyzeAll env files st).map
            (fun r => ((r.1.map endpointDisplay).foldl insertSet acc, r.2)) := by
  intro files
  induction files with
  | nil => intro st acc; rfl
  | cons f rest ih =>
      intro st acc
      simp only [CodeAnalyzer.collectDisplays, CodeAnalyzer.analyzeAll]
      cases h : CodeAnalyzer.analyzeFile env st f with
      | error e => simp [Except.map]
      | ok r =>
          obtain ⟨eps, st'⟩ := r
          dsimp only
          rw [ih st' _]
          cases h2 : CodeAnalyzer.analyzeAll env rest st' with
          | error e => simp [Except.map]
          | ok r2 =>
              obtain ⟨eps', st''⟩ := r2
              simp only [Except.map, List.map_append, List.foldl_append,
                List.foldl_map]

/-- A display string is never empty: it contains the separating space. -/
theorem endpointDisplay_data_ne_nil (e : APIEndpoint) :
    (endpointDisplay e).data ≠ [] := by
  unfold endpointDisplay
  rw [String.data_append, String.data_append]
  simp

/-- No nonempty string is included in the empty string. -/
theorem strIncludes_empty_of_ne (d : String) (h : d.data ≠ []) :
    strIncludes "" d = false := by
  unfold strIncludes
  rw [show ("" : String).data = [] from rfl]
  simp [List.infix_nil, h]

/-- The coverage percentage always lies in the interval `[0, 100]`. -/
theorem coveragePct_mem_Icc (tc : String) (inv : List APIEndpoint) :
    0 ≤ coveragePct tc inv ∧ coveragePct tc inv ≤ 100 := by
  unfold coveragePct
  by_cases h : (inv.map endpointDisplay).toFinset = ∅
  · simp [h]
  · rw [if_neg h]
    have hcard : 0 < (inv.map endpointDisplay).toFinset.card :=
      Finset.card_pos.2 (Finset.nonempty_of_ne_empty h)
    have hc : (0 : ℚ) < ((inv.map endpointDisplay).toFinset.card : ℚ) := by
      exact_mod_cast hcard
    have hle : ((((inv.map endpointDisplay).toFinset.filter
          (fun d => strIncludes tc d = true)).card : ℚ))
        ≤ (((inv.map endpointDisplay).toFinset.card : ℚ)) := by
      exact_mod_cast Finset.card_filter_le (inv.map endpointDisplay).toFinset _
    constructor
    · positivity
    · rw [mul_div_assoc]
      calc 100 * ((((inv.map endpointDisplay).toFinset.filter
              (fun d => strIncludes tc d = true)).card : ℚ)
            / (((inv.map endpointDisplay).toFinset.card : ℚ)))
          ≤ 100 * 1 :=
            mul_le_mul_of_nonneg_left ((div_le_one hc).2 hle) (by norm_num)
        _ = 100 := by norm_num

/-- With an empty test file and a nonempty inventory the coverage is 0. -/
theorem coveragePct_empty_testContent (inv : List APIEndpoint) (h : inv ≠ []) :
    coveragePct "" inv = 0 := by
  unfold coveragePct
  have hne : (inv.map endpointDisplay).toFinset ≠ ∅ := by
    cases inv with
    | nil => exact absurd rfl h
    | cons e t =>
        apply Finset.ne_empty_of_mem (a := endpointDisplay e)
        simp
  rw [if_neg hne]
  have hfilter : (inv.map endpointDisplay).toFinset.filter
      (fun d => strIncludes "" d = true) = ∅ := by
    rw [Finset.filter_eq_empty_iff]
    intro d hd
    simp only [List.mem_toFinset, List.mem_map] at hd
    obtain ⟨e, _, rfl⟩ := hd
    simp [strIncludes_empty_of_ne _ (endpointDisplay_data_ne_nil e)]
  rw [hfilter]
  simp

/-- C1: for every test-file content and source-file list (with the reads
succeeding and `analyzeAll` collecting the inventory), `calculateCoverage`
returns exactly the claim's value `coveragePct`: 100 when the set of
distinct display strings is empty, else 100 times the number of distinct
display strings occurring literally in the test content divided by the
total number of distinct display strings; an empty test content with a
nonempty inventory yields 0, and the result always lies in [0, 100]. -/
theorem calculateCoverage_spec_C1 (env : JsEnv) (st st' : AnalyzerState)
    (testFile : String) (sourceFiles : List String) (tc : String)
    (inventory : List APIEndpoint)
    (hread : env.readFile testFile = .ok tc)
    (hinv : CodeAnalyzer.analyzeAll env sourceFiles st = .ok (inventory, st')) :
    CodeAnalyzer.calculateCoverage env st testFile sourceFiles
      = .ok (coveragePct tc inventory, st')
    ∧ (inventory = [] → coveragePct tc inventory = 100)
    ∧ (tc = "" → inventory ≠ [] → coveragePct tc inventory = 0)
    ∧ 0 ≤ coveragePct tc inventory ∧ coveragePct tc inventory ≤ 100 := by
  obtain ⟨hnodup, hfin⟩ := foldl_insertSet_nodup_toFinset
    (inventory.map endpointDisplay) [] (by simp)
  rw [List.toFinset_nil, Finset.empty_union] at hfin
  have hlen : ((inventory.map endpointDisplay).foldl insertSet []).length
      = (inventory.map endpointDisplay).toFinset.card := by
    rw [← hfin, List.toFinset_card_of_nodup hnodup]
  have htested : (((inventory.map endpointDisplay).foldl insertSet []).foldl
        (fun acc d => if strIncludes tc d then insertSet acc d else acc) []).length
      = ((inventory.map endpointDisplay).toFinset.filter
          (fun d => strIncludes tc d = true)).card := by
    rw [foldl_filterInsert (fun d => strIncludes tc d) _ [] (by simp) hnodup]
    rw [List.nil_append,
      ← List.toFinset_card_of_nodup (List.Nodup.filter _ hnodup),
      List.toFinset_filter, hfin]
  refine ⟨?_, fun h => by simp [h, coveragePct],
    fun h1 h2 => by subst h1; exact coveragePct_empty_testContent inventory h2,
    (coveragePct_mem_Icc tc inventory).1, (coveragePct_mem_Icc tc inventory).2⟩
  simp only [CodeAnalyzer.calculateCoverage, hread]
  rw [collectDisplays_eq_analyzeAll, hinv]
  simp only [Except.map]
  have hval : (if ((inventory.map endpointDisplay).foldl insertSet []).length = 0
        then (100 : ℚ)
        else (((((inventory.map endpointDisplay).foldl insertSet []).foldl
            (fun acc d => if strIncludes tc d then insertSet acc d else acc) []).length : ℚ)
          / ((((inventory.map endpointDisplay).foldl insertSet []).length : ℚ))) * 100)
      = coveragePct tc inventory := by
    unfold coveragePct
    by_cases h0 : (inventory.map endpointDisplay).toFinset = ∅
    · rw [if_pos (by rw [hlen, h0]; simp), if_pos h0]
    · have hcard : 0 < (inventory.map endpointDisplay).toFinset.card :=
        Finset.card_pos.2 (Finset.nonempty_of_ne_empty h0)
      rw [if_neg (by rw [hlen]; omega), if_neg h0, htested, hlen]
      ring
  rw [hval]

/-- C1 witness: the C1 theorem applied to the concrete environment. -/
theorem calculateCoverage_spec_C1_witness :
    envC1.readFile "t.test.js" = .ok "calls GET /users twice"
    ∧ CodeAnalyzer.calculateCoverage envC1 ⟨[]⟩ "t.test.js" ["s.js"]
        = .ok (coveragePct "calls GET /users twice"
                 [{ method := "GET", path := "/users" }],
               ⟨[("s.js", [{ method := "GET", path := "/users" }])]⟩) :=
  ⟨rfl,
    (calculateCoverage_spec_C1 envC1 ⟨[]⟩
      ⟨[("s.js", [{ method := "GET", path := "/users" }])]⟩
      "t.test.js" ["s.js"] "calls GET /users twice"
      [{ method := "GET", path := "/users" }] rfl rfl).1⟩

/-- C2 (amended: the supplied previous content must be non-empty, because a
falsy previous content takes the new-file branch): when the current content
differs from a non-empty previous content, `detectChanges` returns a
`modified` `CodeChange` whose change list is the additions (only `after`
present, display path) followed by the removals (only `before` present),
and `none` when both difference sets are empty. -/
theorem detectChanges_modified_spec_C2 (env : JsEnv) (st st' : AnalyzerState)
    (filePath p cur : String) (curEps : List APIEndpoint)
    (hp : p ≠ "")
    (hread : env.readFile filePath = .ok cur)
    (hne : cur ≠ p)
    (hana : CodeAnalyzer.analyzeFile env st filePath = .ok (curEps, st')) :
    CodeAnalyzer.detectChanges env st filePath (some p)
      = .ok (if additionsOf ((cacheGet st filePath).getD []) curEps
                ++ removalsOf ((cacheGet st filePath).getD []) curEps = []
             then none
             else some { file := filePath, type := .modified,
                         changes := additionsOf ((cacheGet st filePath).getD []) curEps
                           ++ removalsOf ((cacheGet st filePath).getD []) curEps,
                         timestamp := env.now }, st')
    ∧ (∀ c ∈ additionsOf ((cacheGet st filePath).getD []) curEps,
        c.before = none ∧ ∃ e ∈ curEps, c.after = some e ∧ c.path = endpointDisplay e)
    ∧ (∀ c ∈ removalsOf ((cacheGet st filePath).getD []) curEps,
        c.after = none ∧ ∃ e ∈ (cacheGet st filePath).getD [],
          c.before = some e ∧ c.path = endpointDisplay e) := by
  refine ⟨?_, ?_, ?_⟩
  · have hfalsy : strFalsy (some p) = false := by
      simp [strFalsy, hp]
    have hcur : (cur == p) = false := by
      simp [hne]
    simp only [CodeAnalyzer.detectChanges, hread, Option.getD_some, hfalsy, hcur,
      Bool.false_eq_true, if_false, hana]
    rw [foldl_pushIf (fun c => ((cacheGet st filePath).getD []).any
          (fun e => epIdMatch e c)) mkAddedChange curEps []]
    rw [foldl_pushIf (fun q => curEps.any (fun e => epIdMatch e q))
          mkRemovedChange ((cacheGet st filePath).getD []) _]
    simp only [List.nil_append, List.isEmpty_iff]
    unfold additionsOf removalsOf
    by_cases hemp : (curEps.filter (fun c => !((cacheGet st filePath).getD []).any
          (fun e => epIdMatch e c))).map mkAddedChange
        ++ (((cacheGet st filePath).getD []).filter
          (fun q => !curEps.any (fun e => epIdMatch e q))).map mkRemovedChange = []
    · rw [if_pos hemp, if_pos hemp]
    · rw [if_neg hemp, if_neg hemp]
  · intro c hc
    unfold additionsOf at hc
    rw [List.mem_map] at hc
    obtain ⟨e, he, rfl⟩ := hc
    exact ⟨rfl, e, List.mem_of_mem_filter he, rfl, rfl⟩
  · intro c hc
    unfold removalsOf at hc
    rw [List.mem_map] at hc
    obtain ⟨e, he, rfl⟩ := hc
    exact ⟨rfl, e, List.mem_of_mem_filter he, rfl, rfl⟩

/-- C2 witness: the C2 theorem applied to a concrete changed file. -/
theorem detectChanges_modified_spec_C2_witness :
    ("old" : String) ≠ ""
    ∧ CodeAnalyzer.detectChanges envC2 stC2 "s.js" (some "old")
        = .ok (if additionsOf ((cacheGet stC2 "s.js").getD []) [epNewC2]
                  ++ removalsOf ((cacheGet stC2 "s.js").getD []) [epNewC2] = []
               then none
               else some { file := "s.js", type := .modified,
                           changes := additionsOf ((cacheGet stC2 "s.js").getD []) [epNewC2]
                             ++ removalsOf ((cacheGet stC2 "s.js").getD []) [epNewC2],
                           timestamp := envC2.now },
               ⟨[("s.js", [epNewC2])]⟩) :=
  ⟨by decide,
    (detectChanges_modified_spec_C2 envC2 stC2 ⟨[("s.js", [epNewC2])]⟩
      "s.js" "old" "newsrc" [epNewC2] (by decide) rfl (by decide) rfl).1⟩

/-- C2 counterexample: with supplied previous content `""` (which differs
from the current content `"X"`) the result is a CodeChange of type `added`
with an empty change list — not the claimed `modified` diff, and not `none`
even though both difference sets are empty. -/
theorem detectChanges_falsy_previous_cex_C2 :
    ("" : String) ≠ "X"
    ∧ CodeAnalyzer.detectChanges envC2x ⟨[]⟩ "f.js" (some "")
        = .ok (some { file := "f.js", type := .added, changes := [],
                      timestamp := 3 }, ⟨[("f.js", [])]⟩) := by
  exact ⟨by decide, by rfl⟩

/-- C3 (amended: the shared content must be non-empty, because an empty
previous content is falsy in JS and takes the new-file branch):
`detectChanges` with previous content equal to the current content returns
`none` and leaves the analyzer state unchanged, so repeated calls behave
identically. -/
theorem detectChanges_identical_content_C3 (env : JsEnv) (st : AnalyzerState)
    (filePath content : String)
    (hc : content ≠ "")
    (hread : env.readFile filePath = .ok content) :
    CodeAnalyzer.detectChanges env st filePath (some content) = .ok (none, st) := by
  have hfalsy : strFalsy (some content) = false := by
    simp [strFalsy, hc]
  simp [CodeAnalyzer.detectChanges, hread, hfalsy]

/-- C3 witness: the C3 theorem applied to a concrete unchanged file. -/
theorem detectChanges_identical_content_C3_witness :
    ("same" : String) ≠ ""
    ∧ CodeAnalyzer.detectChanges envC3 ⟨[]⟩ "a.js" (some "same") = .ok (none, ⟨[]⟩) :=
  ⟨by decide, detectChanges_identical_content_C3 envC3 ⟨[]⟩ "a.js" "same" (by decide) rfl⟩

/-- C3 counterexample: with previous content `""` equal to the current
content `""`, `detectChanges` does not return `none`: the falsy check on
the previous content routes to the new-file branch and an `added`
CodeChange is returned. -/
theorem detectChanges_empty_content_cex_C3 :
    CodeAnalyzer.detectChanges envC3x ⟨[]⟩ "f.js" (some "")
      = .ok (some { file := "f.js", type := .added, changes := [],
                    timestamp := 9 }, ⟨[("f.js", [])]⟩)
    ∧ (CodeAnalyzer.detectChanges envC3x ⟨[]⟩ "f.js" (some "")).map
        (fun r => r.1) ≠ .ok none := by
  refine ⟨rfl, fun h => ?_⟩
  rw [show (CodeAnalyzer.detectChanges envC3x ⟨[]⟩ "f.js" (some "")).map
        (fun r => r.1)
      = .ok (some { file := "f.js", type := .added, changes := [],
                    timestamp := 9 }) from rfl] at h
  exact Option.noConfusion (Except.ok.inj h)

/-- C4: the single-flight guard is always released: an invocation entered
with the guard clear ends with the guard clear on every path (success,
no-op, or any thrown error), and an invocation entered with the guard set
drops the event and changes nothing — so no execution path leaves the
guard permanently set. -/
theorem handleFileChange_releases_guard_C4 {σ : Type} (env : JsEnv)
    (evolve : AnalyzerState × σ → CodeChange → Except String (AnalyzerState × σ))
    (filePath event : String) (s : SuiteState σ) :
    (s.isEvolving = false →
      (SelfEvolvingTestSuite.handleFileChange env evolve filePath event s).isEvolving
        = false)
    ∧ (s.isEvolving = true →
      SelfEvolvingTestSuite.handleFileChange env evolve filePath event s = s) := by
  constructor
  · intro h
    unfold SelfEvolvingTestSuite.handleFileChange
    rw [if_neg (by simp [h])]
  · intro h
    unfold SelfEvolvingTestSuite.handleFileChange
    rw [if_pos h]

/-- C4 witness: the C4 theorem applied to a concrete idle state. -/
theorem handleFileChange_releases_guard_C4_witness :
    (⟨false, [], ⟨[]⟩, ()⟩ : SuiteState Unit).isEvolving = false
    ∧ (SelfEvolvingTestSuite.handleFileChange envC4 (fun p _ => .ok p)
        "f.js" "change" ⟨false, [], ⟨[]⟩, ()⟩).isEvolving = false :=
  ⟨rfl,
    (handleFileChange_releases_guard_C4 envC4 (fun p _ => .ok p)
      "f.js" "change" ⟨false, [], ⟨[]⟩, ()⟩).1 rfl⟩

/-- The evolution pipeline never touches the snapshot map. -/
theorem evolveApply_fileSnapshots {σ : Type}
    (evolve : AnalyzerState × σ → CodeChange → Except String (AnalyzerState × σ))
    (ch : CodeChange) (s4 : SuiteState σ) :
    (evolveApply evolve ch s4).fileSnapshots = s4.fileSnapshots := by
  unfold evolveApply
  cases evolve (s4.analyzer, s4.evolver) ch with
  | error e => rfl
  | ok r => obtain ⟨ac', ev'⟩ := r; rfl

/-- C5 (amended: the snapshot entry of a deleted file is removed only on an
event whose change detection succeeded with a change — when the deleted
file can no longer be read, detection throws and the stale entry remains):
after an invocation entered with the guard clear on which a change was
detected, a non-delete event replaces the file's snapshot entry with the
freshly read content and a delete event removes the file's entry. -/
theorem handleFileChange_snapshot_C5 {σ : Type} (env : JsEnv)
    (evolve : AnalyzerState × σ → CodeChange → Except String (AnalyzerState × σ))
    (filePath event : String) (s : SuiteState σ)
    (ch : CodeChange) (ac : AnalyzerState)
    (hguard : s.isEvolving = false)
    (hdet : CodeAnalyzer.detectChanges env s.analyzer filePath
        (snapGet s.fileSnapshots filePath) = .ok (some ch, ac)) :
    (event = "delete" →
      (SelfEvolvingTestSuite.handleFileChange env evolve filePath event s).fileSnapshots
        = snapErase s.fileSnapshots filePath)
    ∧ (event ≠ "delete" → ∀ c, env.readFile filePath = .ok c →
      (SelfEvolvingTestSuite.handleFileChange env evolve filePath event s).fileSnapshots
        = snapSet s.fileSnapshots filePath c) := by
  constructor
  · intro he
    subst he
    unfold SelfEvolvingTestSuite.handleFileChange
    rw [if_neg (by simp [hguard])]
    dsimp only
    simp only [hdet]
    rw [if_pos (show (("delete" : String) == "delete") = true from rfl)]
    dsimp only
    rw [evolveApply_fileSnapshots]
  · intro hne c hread
    have hb : (event == "delete") = false := by simp [hne]
    unfold SelfEvolvingTestSuite.handleFileChange
    rw [if_neg (by simp [hguard])]
    dsimp only
    simp only [hdet, hb, Bool.false_eq_true, if_false, hread]
    rw [evolveApply_fileSnapshots]

/-- C5 witness: the C5 theorem applied to a concrete change event, showing
the snapshot entry being replaced with the freshly read content. -/
theorem handleFileChange_snapshot_C5_witness :
    CodeAnalyzer.detectChanges envC5
        (⟨false, [], ⟨[]⟩, ()⟩ : SuiteState Unit).analyzer "f.js" (snapGet [] "f.js")
      = .ok (some { file := "f.js", type := .added, changes := [],
                    timestamp := 2 }, ⟨[("f.js", [])]⟩)
    ∧ (SelfEvolvingTestSuite.handleFileChange envC5 (fun p _ => .ok p) "f.js" "change"
        (⟨false, [], ⟨[]⟩, ()⟩ : SuiteState Unit)).fileSnapshots
        = snapSet [] "f.js" "x" :=
  ⟨rfl,
    (handleFileChange_snapshot_C5 envC5 (fun p _ => .ok p) "f.js" "change"
      (⟨false, [], ⟨[]⟩, ()⟩ : SuiteState Unit)
      { file := "f.js", type := .added, changes := [], timestamp := 2 }
      ⟨[("f.js", [])]⟩ rfl rfl).2 (by decide) "x" rfl⟩

/-- C5 counterexample: on an unlink/delete event for a genuinely deleted
file, change detection throws on the read, the catch swallows the error,
and the file's snapshot entry is NOT deleted — the claim says it is
deleted; `snapErase` shows what deletion would have produced. -/
theorem handleFileChange_delete_keeps_snapshot_cex_C5 :
    (SelfEvolvingTestSuite.handleFileChange envC5x (fun p _ => .ok p) "f.js" "delete"
      (⟨false, [("f.js", "old")], ⟨[]⟩, ()⟩ : SuiteState Unit)).fileSnapshots
      = [("f.js", "old")]
    ∧ snapErase [("f.js", "old")] "f.js" = [] :=
  ⟨rfl, rfl⟩

/-- Left cancellation for string concatenation. -/
theorem strAppend_left_cancel (a x y : String) (h : a ++ x = a ++ y) : x = y := by
  have hd := congrArg String.data h
  rw [String.data_append, String.data_append] at hd
  exact congrArg String.mk (List.append_cancel_left hd)

/-- Right cancellation for string concatenation. -/
theorem strAppend_right_cancel (x y s : String) (h : x ++ s = y ++ s) : x = y := by
  have hd := congrArg String.data h
  rw [String.data_append, String.data_append] at hd
  exact congrArg String.mk (List.append_cancel_right hd)

/-- C6 (amended: the generated file name is derived from the endpoint PATH
alone — each non-alphanumeric character replaced by `_` — so endpoints
whose sanitized paths differ go to distinct files, but two endpoints with
distinct (method, path) identities may share a file): the persisted path
is `testPaths[0]/sanitize(path).test.js`. -/
theorem testFilePath_sanitized_C6 (testPaths : List String) (t0 : String)
    (tc1 tc2 : TestCase) (h0 : testPaths.head? = some t0) :
    SelfEvolvingTestSuite.testFilePathFor testPaths tc1
      = some (joinPath t0 (sanitizeEndpointPath tc1.endpoint.path ++ ".test.js"))
    ∧ (sanitizeEndpointPath tc1.endpoint.path ≠ sanitizeEndpointPath tc2.endpoint.path →
        SelfEvolvingTestSuite.testFilePathFor testPaths tc1
          ≠ SelfEvolvingTestSuite.testFilePathFor testPaths tc2) := by
  constructor
  · simp [SelfEvolvingTestSuite.testFilePathFor, h0]
  · intro hs hcontra
    simp only [SelfEvolvingTestSuite.testFilePathFor, h0, Option.map_some,
      Option.some.injEq] at hcontra
    apply hs
    have h1 : sanitizeEndpointPath tc1.endpoint.path ++ ".test.js"
        = sanitizeEndpointPath tc2.endpoint.path ++ ".test.js" := by
      apply strAppend_left_cancel (t0 ++ "/")
      simpa [joinPath, String.append_assoc] using hcontra
    exact strAppend_right_cancel _ _ _ h1

/-- C6 counterexample: `GET /users` and `POST /users` have distinct
(method, path) identities but are persisted to the same file, because the
file name is derived from the path alone. -/
theorem testFilePath_ignores_method_cex_C6 :
    SelfEvolvingTestSuite.testFilePathFor ["tests"] tcGetUsers
      = SelfEvolvingTestSuite.testFilePathFor ["tests"] tcPostUsers
    ∧ (tcGetUsers.endpoint.method, tcGetUsers.endpoint.path)
        ≠ (tcPostUsers.endpoint.method, tcPostUsers.endpoint.path) :=
  ⟨rfl, by decide⟩

/-- C6 witness: the C6 theorem applied to concrete test cases with
distinct sanitized paths. -/
theorem testFilePath_sanitized_C6_witness :
    (["tests"] : List String).head? = some "tests"
    ∧ SelfEvolvingTestSuite.testFilePathFor ["tests"] tcGetUsers
        = some (joinPath "tests" (sanitizeEndpointPath tcGetUsers.endpoint.path ++ ".test.js"))
    ∧ SelfEvolvingTestSuite.testFilePathFor ["tests"] tcGetUsers
        ≠ SelfEvolvingTestSuite.testFilePathFor ["tests"] tcGetPosts :=
  ⟨rfl,
    (testFilePath_sanitized_C6 ["tests"] "tests" tcGetUsers tcGetPosts rfl).1,
    (testFilePath_sanitized_C6 ["tests"] "tests" tcGetUsers tcGetPosts rfl).2 (by decide)⟩

/-- C7: the endpoint extractor fails closed. When the Babel parse or
traversal throws, `analyzeJavaScript` still returns (it cannot throw: its
total type encodes that the try/catch swallows the error) with the
endpoint list collected so far, which it also caches; and `analyzeFile` on
a readable file whose extension is not `.js`, `.ts` or `.py` returns the
empty endpoint sequence without touching the cache. -/
theorem analyzer_fails_closed_C7 (env : JsEnv) (st : AnalyzerState)
    (content filePath p c : String) (eps : List APIEndpoint) (err : String) :
    (env.parseJS content = (eps, some err) →
      CodeAnalyzer.analyzeJavaScript env st content filePath
        = (eps, cacheSet st filePath eps))
    ∧ (extname p ≠ ".js" → extname p ≠ ".ts" → extname p ≠ ".py" →
        env.readFile p = .ok c →
        CodeAnalyzer.analyzeFile env st p = .ok ([], st)) := by
  constructor
  · intro h
    simp [CodeAnalyzer.analyzeJavaScript, h]
  · intro h1 h2 h3 hread
    simp [CodeAnalyzer.analyzeFile, hread, h1, h2, h3]

/-- C7 witness: the C7 theorem applied to a throwing parse and to a
`.txt` file. -/
theorem analyzer_fails_closed_C7_witness :
    envC7.parseJS "body" = ([], some "SyntaxError")
    ∧ CodeAnalyzer.analyzeJavaScript envC7 ⟨[]⟩ "body" "a.js"
        = ([], cacheSet ⟨[]⟩ "a.js" [])
    ∧ CodeAnalyzer.analyzeFile envC7 ⟨[]⟩ "notes.txt" = .ok ([], ⟨[]⟩) :=
  ⟨rfl,
    (analyzer_fails_closed_C7 envC7 ⟨[]⟩ "body" "a.js" "notes.txt" "body"
      [] "SyntaxError").1 rfl,
    (analyzer_fails_closed_C7 envC7 ⟨[]⟩ "body" "a.js" "notes.txt" "body"
      [] "SyntaxError").2 (by decide) (by decide) (by decide) rfl⟩

/-- C8: `TestGenerator.generateTestCode` falls back to the template when no
AI client is configured, when the external call throws, and when it
returns missing or empty content; a nonempty AI content is returned
as-is. The generator never propagates the external error (its total type
encodes this). -/
theorem generateTestCode_fallback_C8 (tc : TestCase) (e : String) :
    TestGenerator.generateTestCode none tc = generateWithTemplate tc
    ∧ TestGenerator.generateTestCode (some (.error e)) tc = generateWithTemplate tc
    ∧ TestGenerator.generateTestCode (some (.ok none)) tc = generateWithTemplate tc
    ∧ TestGenerator.generateTestCode (some (.ok (some ""))) tc = generateWithTemplate tc
    ∧ (∀ c : String, c ≠ "" →
        TestGenerator.generateTestCode (some (.ok (some c))) tc = c) := by
  refine ⟨rfl, rfl, rfl, rfl, ?_⟩
  intro c hc
  simp [TestGenerator.generateTestCode, TestGenerator.generateWithAI, hc]

/-- C8 witness: the C8 theorem applied to a concrete test case. -/
theorem generateTestCode_fallback_C8_witness :
    TestGenerator.generateTestCode none tcC8 = generateWithTemplate tcC8
    ∧ TestGenerator.generateTestCode (some (.error "boom")) tcC8
        = generateWithTemplate tcC8
    ∧ TestGenerator.generateTestCode (some (.ok (some "code"))) tcC8 = "code" :=
  ⟨(generateTestCode_fallback_C8 tcC8 "boom").1,
   (generateTestCode_fallback_C8 tcC8 "boom").2.1,
   (generateTestCode_fallback_C8 tcC8 "boom").2.2.2.2 "code" (by decide)⟩

/-- The foldl-based test-file collection equals the plain recursion. -/
theorem testFilesOf_foldl_eq (env : JsEnv) :
    ∀ (paths : List String) (init : List String),
      paths.foldl
        (fun acc t =>
          if (env.fsTree t).isSome then
            acc ++ SelfEvolvingTestSuite.getAllFiles env t [".test.js", ".spec.js"]
          else acc) init
        = init ++ testFilesRec env paths := by
  intro paths
  induction paths with
  | nil => intro init; simp [testFilesRec]
  | cons tp rest ih =>
      intro init
      simp only [List.foldl_cons, testFilesRec]
      by_cases h : (env.fsTree tp).isSome
      · rw [if_pos h, if_pos h, ih, List.append_assoc]
      · rw [if_neg h, if_neg h, ih]
        simp

/-- `testFilesOf` in recursion form. -/
theorem testFilesOf_eq_rec (env : JsEnv) (paths : List String) :
    testFilesOf env paths = testFilesRec env paths := by
  unfold testFilesOf
  rw [testFilesOf_foldl_eq]
  simp

/-- The running-total loop equals the per-file coverage list followed by a
sum/length. -/
theorem sumCoverList_eq_coverList (env : JsEnv) (srcs : List String) :
    ∀ (files : List String) (tot : ℚ) (cnt : Nat) (st : AnalyzerState),
      sumCoverList env srcs files tot cnt st
        = (coverList env srcs files st).map
            (fun r => (tot + r.1.sum, cnt + r.1.length, r.2)) := by
  intro files
  induction files with
  | nil => intro tot cnt st; simp [sumCoverList, coverList, Except.map]
  | cons tf rest ih =>
      intro tot cnt st
      simp only [sumCoverList, coverList]
      cases h : CodeAnalyzer.calculateCoverage env st tf srcs with
      | error e => simp [Except.map]
      | ok r =>
          obtain ⟨c, st'⟩ := r
          dsimp only
          rw [ih]
          cases h2 : coverList env srcs rest st' with
          | error e => simp [Except.map]
          | ok r2 =>
              obtain ⟨cs, st''⟩ := r2
              simp only [Except.map, List.sum_cons, List.length_cons,
                Except.ok.injEq, Prod.mk.injEq]
              exact ⟨by ring, by omega, trivial⟩

/-- `coverList` over a concatenation runs the two halves in sequence. -/
theorem coverList_append (env : JsEnv) (srcs : List String) :
    ∀ (a b : List String) (st : AnalyzerState),
      coverList env srcs (a ++ b) st
        = match coverList env srcs a st with
          | .error e => .error e
          | .ok (cs, st') =>
              match coverList env srcs b st' with
              | .error e => .error e
              | .ok (cs2, st'') => .ok (cs ++ cs2, st'') := by
  intro a
  induction a with
  | nil =>
      intro b st
      simp only [List.nil_append, coverList]
      cases h : coverList env srcs b st with
      | error e => rfl
      | ok r => obtain ⟨cs2, st''⟩ := r; simp
  | cons f rest ih =>
      intro b st
      simp only [List.cons_append, coverList]
      cases h : CodeAnalyzer.calculateCoverage env st f srcs with
      | error e => rfl
      | ok r =>
          obtain ⟨c, st'⟩ := r
          dsimp only
          simp only [List.append_eq]
          rw [ih]
          cases h2 : coverList env srcs rest st' with
          | error e => rfl
          | ok r2 =>
              obtain ⟨cs, st''⟩ := r2
              dsimp only
              cases h3 : coverList env srcs b st'' with
              | error e => rfl
              | ok r3 => obtain ⟨cs3, st3⟩ := r3; simp

/-- The outer test-path loop equals the flattened per-file coverage list
followed by a sum/length. -/
theorem sumOverTestPaths_eq_coverList (env : JsEnv) (srcs : List String) :
    ∀ (paths : List String) (tot : ℚ) (cnt : Nat) (st : AnalyzerState),
      sumOverTestPaths env srcs paths tot cnt st
        = (coverList env srcs (testFilesRec env paths) st).map
            (fun r => (tot + r.1.sum, cnt + r.1.length, r.2)) := by
  intro paths
  induction paths with
  | nil => intro tot cnt st; simp [sumOverTestPaths, testFilesRec, coverList, Except.map]
  | cons tp rest ih =>
      intro tot cnt st
      simp only [sumOverTestPaths, testFilesRec]
      by_cases h : (env.fsTree tp).isSome
      · rw [if_pos h, if_pos h, sumCoverList_eq_coverList, coverList_append]
        cases h2 : coverList env srcs
            (SelfEvolvingTestSuite.getAllFiles env tp [".test.js", ".spec.js"]) st with
        | error e => simp [Except.map]
        | ok r =>
            obtain ⟨cs, st'⟩ := r
            simp only [Except.map]
            rw [ih]
            cases h3 : coverList env srcs (testFilesRec env rest) st' with
            | error e => simp [Except.map]
            | ok r3 =>
                obtain ⟨cs3, st3⟩ := r3
                simp only [Except.map, List.sum_append, List.length_append,
                  Except.ok.injEq, Prod.mk.injEq]
                exact ⟨by ring, by omega, trivial⟩
      · rw [if_neg h, if_neg h, ih]
        simp

/-- `coverList` yields one percentage per collected test file. -/
theorem coverList_length (env : JsEnv) (srcs : List String) :
    ∀ (files : List String) (st : AnalyzerState) (cs : List ℚ) (st' : AnalyzerState),
      coverList env srcs files st = .ok (cs, st') → cs.length = files.length := by
  intro files
  induction files with
  | nil =>
      intro st cs st' h
      simp only [coverList, Except.ok.injEq, Prod.mk.injEq] at h
      rw [← h.1]
      rfl
  | cons f rest ih =>
      intro st cs st' h
      simp only [coverList] at h
      cases h2 : CodeAnalyzer.calculateCoverage env st f srcs with
      | error e => rw [h2] at h; exact Except.noConfusion h
      | ok r =>
          obtain ⟨c, st1⟩ := r
          rw [h2] at h
          dsimp only at h
          cases h3 : coverList env srcs rest st1 with
          | error e => rw [h3] at h; exact Except.noConfusion h
          | ok r3 =>
              obtain ⟨cs2, st2⟩ := r3
              rw [h3] at h
              simp only [Except.ok.injEq, Prod.mk.injEq] at h
              rw [← h.1, List.length_cons, ih st1 cs2 st2 h3, List.length_cons]

/-- C9 (amended: "test files" are those the walk actually collects —
recursion over each existing configured test path, skipping hidden and
`node_modules` directories, a file-typed test path collected as itself
regardless of suffix): `calculateCurrentCoverage` returns 0 when the
collection is empty — even when the watched sources contain zero
endpoints, where the per-file estimator would report 100 — and otherwise
the arithmetic mean of the per-test-file coverage percentages over the
collected files. -/
theorem calculateCurrentCoverage_mean_C9 (env : JsEnv)
    (watchPaths testPaths : List String) (st st' : AnalyzerState) (covs : List ℚ)
    (h : coverList env (sourceFilesOf env watchPaths) (testFilesOf env testPaths) st
      = .ok (covs, st')) :
    (testFilesOf env testPaths = [] →
      SelfEvolvingTestSuite.calculateCurrentCoverage env watchPaths testPaths st
        = .ok (0, st))
    ∧ (testFilesOf env testPaths ≠ [] →
      SelfEvolvingTestSuite.calculateCurrentCoverage env watchPaths testPaths st
        = .ok (covs.sum / (covs.length : ℚ), st')) := by
  have htf := testFilesOf_eq_rec env testPaths
  constructor
  · intro hempty
    unfold SelfEvolvingTestSuite.calculateCurrentCoverage
    dsimp only
    rw [sumOverTestPaths_eq_coverList, ← htf, hempty]
    simp [coverList, Except.map]
  · intro hne
    unfold SelfEvolvingTestSuite.calculateCurrentCoverage
    dsimp only
    rw [sumOverTestPaths_eq_coverList, ← htf, h]
    have hlen := coverList_length env (sourceFilesOf env watchPaths)
      (testFilesOf env testPaths) st covs st' h
    have hc0 : covs.length ≠ 0 := by
      rw [hlen]
      intro h0
      exact hne (List.length_eq_zero.1 h0)
    simp only [Except.map]
    rw [if_neg (by omega : ¬ (0 + covs.length = 0))]
    simp

/-- C9 counterexample: a `*.test.js` file exists under the configured test
path (inside `node_modules`), so per the claim the result should be the
mean over such files — that file's own coverage is 100 — yet the walk
skips `node_modules`, collects nothing, and the orchestrator returns 0. -/
theorem calculateCurrentCoverage_skips_node_modules_cex_C9 :
    hasTestFileIn fsC9hidden = true
    ∧ SelfEvolvingTestSuite.calculateCurrentCoverage envC9x ["w"] ["t"] ⟨[]⟩
        = .ok (0, ⟨[]⟩)
    ∧ CodeAnalyzer.calculateCoverage envC9x ⟨[]⟩ "t/node_modules/a.test.js"
          (sourceFilesOf envC9x ["w"])
        = .ok (100, ⟨[("w/s.js", [{ method := "GET", path := "/u" }])]⟩) := by
  have hW : sourceFilesOf envC9x ["w"] = ["w/s.js"] := by
    simp [sourceFilesOf, SelfEvolvingTestSuite.getAllFiles, envC9x, fsC9w,
      walkEntries, walkNode, joinPath]
    decide
  have hT : SelfEvolvingTestSuite.getAllFiles envC9x "t" [".test.js", ".spec.js"]
      = [] := by
    simp [SelfEvolvingTestSuite.getAllFiles, envC9x, fsC9hidden,
      walkEntries, walkNode]
  refine ⟨?_, ?_, ?_⟩
  · simp [hasTestFileIn, hasTestFileInEntries, fsC9hidden]
    decide
  · unfold SelfEvolvingTestSuite.calculateCurrentCoverage
    dsimp only
    have hFs : envC9x.fsTree "t" = some fsC9hidden := rfl
    simp [sumOverTestPaths, sumCoverList, hFs, hT]
  · rw [hW]
    have h3 : CodeAnalyzer.calculateCoverage envC9x ⟨[]⟩ "t/node_modules/a.test.js"
        ["w/s.js"]
        = .ok (((1 : ℚ) / (1 : ℚ)) * 100,
               ⟨[("w/s.js", [{ method := "GET", path := "/u" }])]⟩) := rfl
    rw [h3, show ((1 : ℚ) / (1 : ℚ)) * 100 = 100 by norm_num]

/-- C9 witness: the C9 theorem applied to one collected test file whose
coverage is 100. -/
theorem calculateCurrentCoverage_mean_C9_witness :
    coverList envC9 (sourceFilesOf envC9 ["w"]) (testFilesOf envC9 ["t"]) ⟨[]⟩
      = .ok ([100], stC9)
    ∧ testFilesOf envC9 ["t"] ≠ []
    ∧ SelfEvolvingTestSuite.calculateCurrentCoverage envC9 ["w"] ["t"] ⟨[]⟩
        = .ok (([100] : List ℚ).sum / ((([100] : List ℚ).length : Nat) : ℚ), stC9) := by
  have hW : sourceFilesOf envC9 ["w"] = ["w/s.js"] := by
    simp [sourceFilesOf, SelfEvolvingTestSuite.getAllFiles, envC9, fsC9w,
      walkEntries, walkNode, joinPath]
    decide
  have hT : testFilesOf envC9 ["t"] = ["t/a.test.js"] := by
    simp [testFilesOf, SelfEvolvingTestSuite.getAllFiles, envC9, fsC9t,
      walkEntries, walkNode, joinPath]
    decide
  have hcl0 : coverList envC9 ["w/s.js"] ["t/a.test.js"] ⟨[]⟩
      = .ok ([((1 : ℚ) / (1 : ℚ)) * 100], stC9) := rfl
  have hcl : coverList envC9 (sourceFilesOf envC9 ["w"]) (testFilesOf envC9 ["t"]) ⟨[]⟩
      = .ok ([100], stC9) := by
    rw [hW, hT, hcl0, show ((1 : ℚ) / (1 : ℚ)) * 100 = 100 by norm_num]
  refine ⟨hcl, by rw [hT]; decide, ?_⟩
  exact (calculateCurrentCoverage_mean_C9 envC9 ["w"] ["t"] ⟨[]⟩ stC9 [100] hcl).2
    (by rw [hT]; decide)

/-- C10: `getMetrics` reports the size of the evolver's store, the number
of stored cases whose autoGenerated flag is true, and the coverage.after
and timestamp of the most recent history entry — with coverage 0 and
lastEvolution none for an empty history. -/
theorem getMetrics_spec_C10 (s : TestEvolverState) :
    (SelfEvolvingTestSuite.getMetrics s).totalTests = s.testCases.length
    ∧ (SelfEvolvingTestSuite.getMetrics s).autoGeneratedTests
        = s.testCases.countP (fun t => t.autoGenerated)
    ∧ (s.history = [] →
        (SelfEvolvingTestSuite.getMetrics s).coverage = 0
        ∧ (SelfEvolvingTestSuite.getMetrics s).lastEvolution = none)
    ∧ (∀ (pre : List Evolution) (x : Evolution), s.history = pre ++ [x] →
        (SelfEvolvingTestSuite.getMetrics s).coverage = x.coverage.after
        ∧ (SelfEvolvingTestSuite.getMetrics s).lastEvolution = some x.timestamp) := by
  refine ⟨rfl, ?_, ?_, ?_⟩
  · simp [SelfEvolvingTestSuite.getMetrics, TestEvolver.getTestCases,
      List.countP_eq_length_filter]
  · intro h
    simp [SelfEvolvingTestSuite.getMetrics, TestEvolver.getEvolutionHistory, h]
  · intro pre x h
    simp [SelfEvolvingTestSuite.getMetrics, TestEvolver.getEvolutionHistory, h,
      List.getLast?_concat]

/-- C10 witness: the C10 theorem applied to a concrete evolver state with
one history entry. -/
theorem getMetrics_spec_C10_witness :
    sC10.history = [] ++ [evC10]
    ∧ (SelfEvolvingTestSuite.getMetrics sC10).coverage = evC10.coverage.after
    ∧ (SelfEvolvingTestSuite.getMetrics sC10).lastEvolution = some evC10.timestamp :=
  ⟨rfl,
    ((getMetrics_spec_C10 sC10).2.2.2 [] evC10 rfl).1,
    ((getMetrics_spec_C10 sC10).2.2.2 [] evC10 rfl).2⟩
